import Mathlib

/-!
Verification of the FuzzyNLP command-parsing pipeline.

A shallow embedding of the repository's Python sources:
  * `command_parser.py` — slot extraction over spaCy-annotated tokens
    (`extract_command_slots`, `generate_command_object`);
  * `robot_controller.py` — the simulated robot state and the dispatcher
    (`move_robot`, `rotate_robot`, `halt_robot`, `grab_object`,
    `execute_command`);
  * `fuzzy_matching.py` — the fuzzy corrector (`get_standard_word`) and the
    reference lexicon (`REFERENCE_COMMAND_LEXICON`).

Modelling conventions:
  * Python floats are modelled as rationals (`ℚ`); every numeric computation
    the claims touch (division by 100, signed addition) is exact in both.
  * A spaCy `Doc` is a `List Token`; each token records its head's index, and
    `token.children` is recovered as the positions whose head field points at
    the token (document order, as spaCy yields them).
  * Python's `float(...)` builtin raising `ValueError` is modelled by
    `pyFloat : String → Option ℚ`; a raised exception propagating out of
    `extract_command_slots` is the `none` result of the `Option`-monadic fold.
  * Python dicts holding the four command keys are modelled by `CommandDict`,
    whose fields are `Option (Option _)`: the outer layer is key presence,
    the inner layer is the stored value possibly being `None`.
  * Rendering of numbers inside feedback strings is abstracted by `showQ`
    (the spec marks feedback strings as presentation-only except for the
    error markers, which are embedded verbatim).
-/

/-- An annotated token as produced by the external spaCy annotator:
`text`, `pos_`, `lemma_`, `dep_`, `ent_type_`, and the index of its head. -/
structure Token where
  text : String
  pos_ : String
  lemma_ : String
  dep_ : String
  entType : String
  head : Nat
deriving DecidableEq

/-- Default token used for out-of-range (never-taken) list reads. -/
def defaultToken : Token :=
  { text := "", pos_ := "", lemma_ := "", dep_ := "", entType := "", head := 0 }

instance : Inhabited Token := ⟨defaultToken⟩

/-- `STANDARD_ACTIONS` from `command_parser.py` (a Python set; only
membership is used, so a list is a faithful model). -/
def STANDARD_ACTIONS : List String := ["move", "rotate", "stop", "grab", "release"]

/-- `STANDARD_DIRECTIONS` from `command_parser.py`. -/
def STANDARD_DIRECTIONS : List String := ["forward", "backward", "left", "right"]

/-- `STANDARD_UNITS` from `command_parser.py`: a set of surface spellings,
not a mapping. -/
def STANDARD_UNITS : List String := ["cm", "meters", "degrees"]

/-- The command-slot dict built by `extract_command_slots`; all four keys are
always present, initialised to `UNKNOWN` / `None`. -/
structure CommandSlots where
  command : String
  direction : Option String
  value : Option ℚ
  unit : Option String
deriving DecidableEq

/-- The initial slot dict of `extract_command_slots`. -/
def initSlots : CommandSlots :=
  { command := "UNKNOWN", direction := none, value := none, unit := none }

/-- Python's `str.lower` on the ASCII fragment: per-character lower-casing. -/
def pyLower (s : String) : String := ⟨s.data.map Char.toLower⟩

/-- Python's `str.upper` on the ASCII fragment: per-character upper-casing. -/
def pyUpper (s : String) : String := ⟨s.data.map Char.toUpper⟩

/-- Python's whitespace `str.split` (here only space-separated values occur):
splits on runs of spaces, discarding empty pieces. -/
def pySplitWsAux : List Char → List Char → List String
  | [], acc => if acc.isEmpty then [] else [⟨acc.reverse⟩]
  | c :: rest, acc =>
    if c = ' ' then
      if acc.isEmpty then pySplitWsAux rest []
      else ⟨acc.reverse⟩ :: pySplitWsAux rest []
    else pySplitWsAux rest (c :: acc)

/-- Python's `str.split()` with no separator argument. -/
def pySplitWs (s : String) : List String := pySplitWsAux s.data []

/-- Python's `str.isdigit` on the ASCII fragment: nonempty and all digits. -/
def pyIsdigit (s : String) : Bool :=
  !s.isEmpty && s.data.all Char.isDigit

/-- All-occurrence, left-to-right string replacement on character lists,
modelling Python's `str.replace`; fuel bounds the recursion. -/
def replaceFuel (pat repl : List Char) : Nat → List Char → List Char
  | 0, l => l
  | _ + 1, [] => []
  | n + 1, c :: rest =>
    if pat ≠ [] ∧ (c :: rest).take pat.length = pat then
      repl ++ replaceFuel pat repl n ((c :: rest).drop pat.length)
    else
      c :: replaceFuel pat repl n rest

/-- Python's `str.replace` (all occurrences, left to right). -/
def pyReplace (s pat repl : String) : String :=
  ⟨replaceFuel pat.data repl.data (s.length + 1) s.data⟩

/-- Value of a digit list read in base 10. -/
def digitsNat (l : List Char) : Nat :=
  l.foldl (fun acc c => acc * 10 + (c.toNat - 48)) 0

/-- Models Python's `float(...)` builtin on the decimal literals the pipeline
can feed it: optional sign, integer digits, optional fraction. Inputs outside
this grammar (e.g. alphabetic numerals such as `three`, or `1n` produced by
the a→1 substitution applied to `an`) yield `none`, modelling the raised
`ValueError`; exponents, `inf`/`nan` and underscores are not reachable from
the tokens this program parses. `pyFloatMag` parses the unsigned part. -/
def pyFloatMag (chars : List Char) : Option ℚ :=
  let intPart := chars.takeWhile (fun c => c ≠ '.')
  let rest := chars.dropWhile (fun c => c ≠ '.')
  match rest with
  | [] =>
    if pyIsdigit ⟨intPart⟩ then some ((digitsNat intPart : Nat) : ℚ) else none
  | '.' :: frac =>
    if frac.all Char.isDigit && !frac.contains '.' && !(intPart.isEmpty && frac.isEmpty)
        && intPart.all Char.isDigit then
      some ((digitsNat intPart : ℚ) + (digitsNat frac : ℚ) / (10 : ℚ) ^ frac.length)
    else none
  | _ => none

/-- Python's `float(...)`: optional sign, then an unsigned decimal literal. -/
def pyFloat (s : String) : Option ℚ :=
  match s.data with
  | '-' :: r => (pyFloatMag r).map Neg.neg
  | '+' :: r => pyFloatMag r
  | r => pyFloatMag r

/-- `token.children` of spaCy: the positions in the doc whose head field
points at `j` (a token is not its own child), in document order. -/
def childIndices (doc : List Token) (j : Nat) : List Nat :=
  (List.range doc.length).filter fun i => i ≠ j ∧ (doc.getD i defaultToken).head = j

/-- The grandchild loop of `extract_command_slots` (lines 96–98): each child
of the unit token whose entity type is `CARDINAL` overwrites `value` with
`float(grandchild.text)` (raw text, no substitution); a parse failure is a
raised `ValueError` (`none`). -/
def processGrandchild (doc : List Token) (slots : CommandSlots) (gcIdx : Nat) :
    Option CommandSlots :=
  let gc := doc.getD gcIdx defaultToken
  if gc.entType = "CARDINAL" then
    match pyFloat gc.text with
    | none => none
    | some v => some { slots with value := some v }
  else
    some slots

/-- The child loop body of `extract_command_slots` (lines 67–98): direction
check on the lower-cased child text, then the value/unit logic guarded by the
dependency relation or `CARDINAL` entity type. -/
def processChild (doc : List Token) (slots : CommandSlots) (childIdx : Nat) :
    Option CommandSlots :=
  let child := doc.getD childIdx defaultToken
  let childText := pyLower child.text
  let slots :=
    if childText ∈ STANDARD_DIRECTIONS then
      { slots with direction := some (pyUpper childText) }
    else slots
  if child.dep_ ∈ ["nummod", "dobj", "pobj"] ∨ child.entType = "CARDINAL" then
    if pyIsdigit childText ∨ child.entType = "CARDINAL" then
      match pyFloat (pyReplace (pyReplace childText "a" "1") "an" "1") with
      | none => none
      | some v =>
        let slots := { slots with value := some v }
        if pyLower (doc.getD child.head defaultToken).text ∈ STANDARD_UNITS then
          some { slots with unit := some (pyLower (doc.getD child.head defaultToken).text) }
        else if childIdx + 1 < doc.length ∧
            pyLower (doc.getD (childIdx + 1) defaultToken).text ∈ STANDARD_UNITS then
          some { slots with unit := some (pyLower (doc.getD (childIdx + 1) defaultToken).text) }
        else
          some slots
    else if childText ∈ STANDARD_UNITS then
      (childIndices doc childIdx).foldlM (processGrandchild doc)
        { slots with unit := some childText }
    else
      some slots
  else
    some slots

/-- A token the outer loop of `extract_command_slots` reacts to:
`token.pos_ == "VERB" and token.lemma_ in STANDARD_ACTIONS` (exact,
case-sensitive membership). -/
def isActionVerb (t : Token) : Prop :=
  t.pos_ = "VERB" ∧ t.lemma_ ∈ STANDARD_ACTIONS

instance (t : Token) : Decidable (isActionVerb t) := by
  unfold isActionVerb; infer_instance

/-- One iteration of the outer `for token in doc` loop of
`extract_command_slots`: on an action verb, overwrite `command` and run the
child loop; otherwise leave the slots untouched. -/
def stepVerb (doc : List Token) (slots : CommandSlots) (tokenIdx : Nat) :
    Option CommandSlots :=
  let token := doc.getD tokenIdx defaultToken
  if isActionVerb token then
    (childIndices doc tokenIdx).foldlM (processChild doc)
      { slots with command := pyUpper token.lemma_ }
  else
    some slots

/-- `extract_command_slots(doc, fuzzy_tokens)` of `command_parser.py`.
The `fuzzy_tokens` argument is accepted but (as in the source) never read.
`none` models an uncaught `ValueError` escaping the function. -/
def extract_command_slots (doc : List Token) (_fuzzyTokens : List String) :
    Option CommandSlots :=
  (List.range doc.length).foldlM (stepVerb doc) initSlots

/-- `generate_command_object` of `command_parser.py`, with the spaCy document
(the external annotator's output) passed in as an oracle input: runs the
extractor, then applies the fallback rule on the first fuzzy token. -/
def generate_command_object (doc : List Token) (fuzzyTokens : List String) :
    Option CommandSlots :=
  (extract_command_slots doc fuzzyTokens).map fun commandObject =>
    if commandObject.command = "UNKNOWN" then
      match fuzzyTokens with
      | [] => commandObject
      | t :: _ =>
        if t ∈ STANDARD_ACTIONS then { commandObject with command := pyUpper t }
        else commandObject
    else
      commandObject

/-- The simulated robot pose held by `RobotController` in
`robot_controller.py`: planar position, heading and gripper state. -/
structure RobotState where
  x : ℚ
  y : ℚ
  angle : ℚ
  gripper_state : String
deriving DecidableEq

/-- `RobotController.__init__`: the origin pose with an open gripper. -/
def initRobot : RobotState := { x := 0, y := 0, angle := 0, gripper_state := "open" }

/-- `RobotController._update_state`: adds the deltas to the pose. -/
def update_state (s : RobotState) (dx dy da : ℚ) : RobotState :=
  { s with x := s.x + dx, y := s.y + dy, angle := s.angle + da }

/-- Abstract rendering of a Python float inside a feedback string (the spec
marks feedback-string content as presentation-only). -/
def showQ (q : ℚ) : String := toString q

/-- Renders a Python value that may be `None` (as in `f"...{direction}..."`
when the direction slot holds `None`). -/
def pyStr : Option String → String
  | none => "None"
  | some s => s

/-- `RobotController.get_current_state`. -/
def get_current_state (s : RobotState) : String :=
  "Position: (" ++ showQ s.x ++ ", " ++ showQ s.y ++ "), Orientation: "
    ++ showQ s.angle ++ " degrees, Gripper: " ++ s.gripper_state

/-- `RobotController.move_robot`: converts the value to meters (`cm` divides
by 100, `meter` is the identity, anything else returns the error string with
no state change), maps the direction to an axis-aligned delta (an unknown
direction gives a zero delta), applies it, and returns the feedback. -/
def move_robot (s : RobotState) (direction : String) (value : ℚ) (unit : String) :
    String × RobotState :=
  match (if unit = "cm" then some (value / 100) else
         if unit = "meter" then some value else none) with
  | none => ("Error: Unit '" ++ unit ++ "' not supported for movement.", s)
  | some distance_m =>
    let d : ℚ × ℚ :=
      if direction = "FORWARD" then (0, distance_m)
      else if direction = "BACKWARD" then (0, -distance_m)
      else if direction = "RIGHT" then (distance_m, 0)
      else if direction = "LEFT" then (-distance_m, 0)
      else (0, 0)
    let s2 := update_state s d.1 d.2 0
    ("Simulated: Moving robot " ++ direction ++ " by " ++ showQ value ++ " "
       ++ unit ++ ". New state: " ++ get_current_state s2, s2)

/-- `RobotController.rotate_robot`: `+angle` when the direction is exactly
the string `RIGHT`, `-angle` otherwise (including a `None` direction). -/
def rotate_robot (s : RobotState) (angle : ℚ) (direction : Option String) :
    String × RobotState :=
  let rotation := if direction = some "RIGHT" then angle else -angle
  let s2 := update_state s 0 0 rotation
  ("Simulated: Rotating robot " ++ pyStr direction ++ " by " ++ showQ angle
     ++ " degrees. New angle: " ++ showQ s2.angle ++ ".", s2)

/-- `RobotController.halt_robot`: pose untouched. -/
def halt_robot (s : RobotState) : String × RobotState :=
  ("Simulated: Robot immediately halted.", s)

/-- `RobotController.grab_object`: closes the gripper. -/
def grab_object (s : RobotState) : String × RobotState :=
  ("Simulated: Gripper closed. Object secured.", { s with gripper_state := "closed" })

/-- A Python dict carrying (at most) the four command keys. The outer
`Option` is key presence, the inner one a possibly-`None` stored value, so
`dict.get(k)` is `Option.join` and `dict.get(k, d)` is `Option.getD _ d`. -/
structure CommandDict where
  command : Option (Option String)
  direction : Option (Option String)
  value : Option (Option ℚ)
  unit : Option (Option String)
deriving DecidableEq

/-- Python truthiness of a possibly-`None` string: `None` and `""` are falsy. -/
def truthyStr : Option String → Bool
  | none => false
  | some s => !s.isEmpty

/-- Python truthiness of a possibly-`None` float: `None` and `0.0` are falsy. -/
def truthyRat : Option ℚ → Bool
  | none => false
  | some q => if q = 0 then false else true

/-- `execute_command` of `robot_controller.py`: dispatch on
`command_obj.get('command')`, with the MOVE completeness check
(`not all([direction, value, unit])`), the ROTATE default direction
(`get('direction', 'RIGHT')` — applied only when the key is absent) and
value check (`if not value`), STOP, GRAB, and the unrecognized-command error. -/
def execute_command (command_obj : CommandDict) (robot : RobotState) :
    String × RobotState :=
  let command := command_obj.command.join
  if command = some "MOVE" then
    let direction := command_obj.direction.join
    let value := command_obj.value.join
    let unit := command_obj.unit.join
    if truthyStr direction && truthyRat value && truthyStr unit then
      move_robot robot (direction.getD "") (value.getD 0) (unit.getD "")
    else
      ("Error: MOVE command missing direction, value, or unit.", robot)
  else if command = some "ROTATE" then
    let direction := command_obj.direction.getD (some "RIGHT")
    let value := command_obj.value.join
    if truthyRat value then
      rotate_robot robot (value.getD 0) direction
    else
      ("Error: ROTATE command missing angle value.", robot)
  else if command = some "STOP" then
    halt_robot robot
  else if command = some "GRAB" then
    grab_object robot
  else
    ("Error: Command '" ++ pyStr command ++ "' not recognized by the Robot Controller.", robot)

/-- The slot dict produced by the parser, as the dict handed to dispatch:
all four keys present (`main.py` feeds `generate_command_object`'s result
straight into `execute_command`). -/
def slotsToDict (c : CommandSlots) : CommandDict :=
  { command := some (some c.command), direction := some c.direction,
    value := some c.value, unit := some c.unit }

/-- `REFERENCE_COMMAND_LEXICON` of `fuzzy_matching.py`, in insertion order.
A Python dict keyed by strings; `List.lookup` is `dict.get` on it. -/
def REFERENCE_COMMAND_LEXICON : List (String × String) :=
  [("go", "move"), ("advance", "move"), ("shift", "move"), ("turn", "rotate"),
   ("halt", "stop"),
   ("forwards", "forward"), ("front", "forward"), ("back", "backward"),
   ("centimeter", "cm"), ("meters", "meter"), ("degree", "degrees"),
   ("ten", "10"), ("half", "0.5"), ("one", "1"), ("two", "2"), ("three", "3"),
   ("half a meter", "0.5 meter")]

/-- `lexicon.get(token, token)` as used by `simple_template_matching`. -/
def lexGet (lexicon : List (String × String)) (token : String) : String :=
  (lexicon.lookup token).getD token

/-- `simple_template_matching` of `fuzzy_matching.py`: replace each token by
its lexicon value when present, splitting multi-word values on spaces. -/
def simple_template_matching (fuzzyTokens : List String)
    (lexicon : List (String × String)) : List String :=
  fuzzyTokens.foldl (fun finalTokens token =>
    let sv := lexGet lexicon token
    if sv.data.contains ' ' then finalTokens ++ pySplitWs sv
    else finalTokens ++ [sv]) []

/-- `get_standard_word` of `fuzzy_matching.py`, parametrised by the external
similarity metric (`fuzz.ratio`, a black box per the spec): track the highest
score; a vocabulary word becomes the best match only when its score strictly
exceeds the running maximum and reaches the threshold; finally fall back to
the original token when the maximum never reached the threshold. A total
function: it cannot raise on any input. The loop body is split out as
`fuzzyStep` below. -/
def fuzzyStep (score : String → String → Nat) (token : String) (threshold : Nat)
    (acc : String × Nat) (standard_word : String) : String × Nat :=
  let r := score (pyLower token) (pyLower standard_word)
  if r > acc.2 then
    if r ≥ threshold then (standard_word, r) else (acc.1, r)
  else acc

def get_standard_word (score : String → String → Nat) (token : String)
    (vocabulary : List String) (threshold : Nat) : String :=
  let p := vocabulary.foldl (fuzzyStep score token threshold) (token, 0)
  if p.2 ≥ threshold then p.1 else token

/-- A minimal action-verb token ("move", tagged VERB, lemma "move"). -/
def verbTok : Token :=
  { text := "move", pos_ := "VERB", lemma_ := "move", dep_ := "ROOT", entType := "", head := 0 }

/-- A numeral-entity child of `verbTok`: arbitrary surface text, tagged as a
`CARDINAL` entity, direct object of the verb. -/
def numTok (txt : String) : Token :=
  { text := txt, pos_ := "NUM", lemma_ := txt, dep_ := "dobj", entType := "CARDINAL", head := 0 }

/-- A second action verb later in the sentence (lemma "rotate"), dependent on
the first. -/
def rotateVerbTok : Token :=
  { text := "rotate", pos_ := "VERB", lemma_ := "rotate", dep_ := "conj", entType := "", head := 0 }

/-- A direction word ("forward") in a sentence with no action verb. -/
def fwdTok : Token :=
  { text := "forward", pos_ := "ADV", lemma_ := "forward", dep_ := "advmod", entType := "", head := 0 }

/-- An action verb whose surface text is the unit spelling "meters". -/
def mHeadVerbTok : Token :=
  { text := "meters", pos_ := "VERB", lemma_ := "move", dep_ := "ROOT", entType := "", head := 0 }

/-- A digit-text direct object of the verb at position 0. -/
def numChildTok : Token :=
  { text := "5", pos_ := "NUM", lemma_ := "5", dep_ := "dobj", entType := "", head := 0 }

/-- The last token of the document that the outer loop of
`extract_command_slots` reacts to (the loop never breaks, so the final
overwrite of the `command` slot comes from this token). -/
def lastActionVerb (doc : List Token) : Option Token :=
  (doc.filter fun t => decide (isActionVerb t)).getLast?

/-- The slot-record invariant maintained for the `unit` field: absent, or one
of the surface spellings in `STANDARD_UNITS`. -/
def unitOK (s : CommandSlots) : Prop :=
  s.unit = none ∨ ∃ u, s.unit = some u ∧ u ∈ STANDARD_UNITS

/-- An `Option`-monadic left fold preserves any projection that every
successful step preserves. -/
theorem foldlM_option_pres {α β : Type} {γ : Type} (f : α → β → Option α) (g : α → γ)
    (hf : ∀ s i s', f s i = some s' → g s' = g s) :
    ∀ (l : List β) (s s' : α), List.foldlM f s l = some s' → g s' = g s := by
  intro l
  induction l with
  | nil =>
    intro s s' h
    rw [List.foldlM_nil] at h
    cases h
    rfl
  | cons a l ih =>
    intro s s' h
    rw [List.foldlM_cons] at h
    cases hfa : f s a with
    | none => rw [hfa] at h; simp at h
    | some m =>
      rw [hfa] at h
      simp only [Option.bind_eq_bind, Option.some_bind] at h
      exact (ih m s' h).trans (hf s a m hfa)

/-- An `Option`-monadic left fold preserves any invariant that every
successful step preserves. -/
theorem foldlM_option_inv {α β : Type} (f : α → β → Option α) (P : α → Prop)
    (hf : ∀ s i s', P s → f s i = some s' → P s') :
    ∀ (l : List β) (s s' : α), P s → List.foldlM f s l = some s' → P s' := by
  intro l
  induction l with
  | nil =>
    intro s s' hP h
    rw [List.foldlM_nil] at h
    cases h
    exact hP
  | cons a l ih =>
    intro s s' hP h
    rw [List.foldlM_cons] at h
    cases hfa : f s a with
    | none => rw [hfa] at h; simp at h
    | some m =>
      rw [hfa] at h
      simp only [Option.bind_eq_bind, Option.some_bind] at h
      exact ih m s' (hf s a m hP hfa) h

/-- The grandchild loop only ever writes the `value` slot. -/
theorem processGrandchild_pres {doc : List Token} {s : CommandSlots} {i : Nat}
    {s' : CommandSlots} (h : processGrandchild doc s i = some s') :
    s'.command = s.command ∧ s'.unit = s.unit := by
  unfold processGrandchild at h
  dsimp only at h
  split at h
  · split at h
    · simp at h
    · cases h; exact ⟨rfl, rfl⟩
  · cases h; exact ⟨rfl, rfl⟩

/-- The child loop never writes the `command` slot, and writes the `unit`
slot only with members of `STANDARD_UNITS`. -/
theorem processChild_pres {doc : List Token} {s : CommandSlots} {i : Nat}
    {s' : CommandSlots} (h : processChild doc s i = some s') :
    s'.command = s.command ∧
      (s'.unit = s.unit ∨ ∃ u, s'.unit = some u ∧ u ∈ STANDARD_UNITS) := by
  unfold processChild at h
  dsimp only at h
  split at h
  · split at h
    · split at h
      · simp at h
      · rename_i hguard
        split at h
        · cases h
          exact ⟨by split <;> rfl, Or.inr ⟨_, rfl, by assumption⟩⟩
        · rename_i hnext
          split at h
          · cases h
            exact ⟨by split <;> rfl, Or.inr ⟨_, rfl, (by assumption : _ ∧ _).2⟩⟩
          · cases h
            exact ⟨by split <;> rfl, Or.inl (by split <;> rfl)⟩
    · split at h
      · rename_i hu
        have hpres := foldlM_option_pres (processGrandchild doc)
          (fun t => (t.command, t.unit))
          (fun a b c hh => by
            have hp := processGrandchild_pres hh
            simp [hp.1, hp.2]) _ _ _ h
        have h1 : s'.command =
            (if pyLower (doc.getD i defaultToken).text ∈ STANDARD_DIRECTIONS then
              { s with direction := some (pyUpper (pyLower (doc.getD i defaultToken).text)) }
             else s).command := congrArg Prod.fst hpres
        have h2 : s'.unit = some (pyLower (doc.getD i defaultToken).text) :=
          congrArg Prod.snd hpres
        refine ⟨?_, Or.inr ⟨_, h2, hu⟩⟩
        rw [h1]; split <;> rfl
      · cases h
        exact ⟨by split <;> rfl, Or.inl (by split <;> rfl)⟩
  · cases h
    exact ⟨by split <;> rfl, Or.inl (by split <;> rfl)⟩

/-- One outer-loop iteration: the `command` slot becomes the token's
upper-cased lemma exactly when the token is a matching action verb (otherwise
it is untouched), and the `unit` slot obeys the surface-spelling invariant. -/
theorem stepVerb_pres {doc : List Token} {s : CommandSlots} {i : Nat}
    {s' : CommandSlots} (h : stepVerb doc s i = some s') :
    s'.command = (if isActionVerb (doc.getD i defaultToken)
      then pyUpper (doc.getD i defaultToken).lemma_ else s.command) ∧
      (s'.unit = s.unit ∨ ∃ u, s'.unit = some u ∧ u ∈ STANDARD_UNITS) := by
  unfold stepVerb at h
  dsimp only at h
  split at h
  · rename_i hv
    rw [if_pos hv]
    have hcmd := foldlM_option_pres (processChild doc) (fun t => t.command)
      (fun a b c hh => (processChild_pres hh).1) _ _ _ h
    have hunit := foldlM_option_inv (processChild doc)
      (fun t => t.unit = s.unit ∨ ∃ u, t.unit = some u ∧ u ∈ STANDARD_UNITS)
      (fun a b c hP hh => by
        rcases (processChild_pres hh).2 with heq | hex
        · rw [heq]; exact hP
        · exact Or.inr hex) (childIndices doc i)
      { s with command := pyUpper (doc.getD i defaultToken).lemma_ } s' (Or.inl rfl) h
    exact ⟨hcmd, hunit⟩
  · rename_i hv
    rw [if_neg hv]
    cases h
    exact ⟨rfl, Or.inl rfl⟩

/-- A token index that is not a matching action verb leaves the slots
untouched. -/
theorem stepVerb_skip {doc : List Token} {s : CommandSlots} {i : Nat}
    (h : ¬ isActionVerb (doc.getD i defaultToken)) : stepVerb doc s i = some s := by
  unfold stepVerb
  dsimp only
  rw [if_neg h]

/-- The `command` slot after folding the outer loop over the first `k`
positions: the upper-cased lemma of the last matching action verb among
them, or the starting value when there is none. -/
theorem extract_fold_command (doc : List Token) :
    ∀ (k : Nat) (s co : CommandSlots),
      List.foldlM (stepVerb doc) s (List.range k) = some co →
      co.command =
        match ((doc.take k).filter fun t => decide (isActionVerb t)).getLast? with
        | none => s.command
        | some t => pyUpper t.lemma_ := by
  intro k
  induction k with
  | zero =>
    intro s co h
    rw [List.range_zero, List.foldlM_nil] at h
    cases h
    rfl
  | succ k ih =>
    intro s co h
    rw [List.range_succ, List.foldlM_append] at h
    cases hmid : List.foldlM (stepVerb doc) s (List.range k) with
    | none => rw [hmid] at h; simp at h
    | some mid =>
      rw [hmid] at h
      simp only [Option.bind_eq_bind, Option.some_bind] at h
      rw [List.foldlM_cons] at h
      cases hstep : stepVerb doc mid k with
      | none => rw [hstep] at h; simp at h
      | some fin =>
        rw [hstep] at h
        simp only [Option.bind_eq_bind, Option.some_bind, List.foldlM_nil,
          Option.pure_def, Option.some.injEq] at h
        subst h
        have hcmd := (stepVerb_pres hstep).1
        have hih := ih s mid hmid
        by_cases hk : k < doc.length
        · have hgd : doc.getD k defaultToken = doc[k] :=
            List.getD_eq_getElem doc defaultToken hk
          rw [hgd] at hcmd
          rw [List.take_succ, List.getElem?_eq_getElem hk, Option.toList_some,
            List.filter_append]
          by_cases hav : isActionVerb doc[k]
          · have hfil : List.filter (fun t => decide (isActionVerb t)) [doc[k]]
                = [doc[k]] := by simp [hav]
            rw [hfil, List.getLast?_concat, hcmd, if_pos hav]
          · have hfil : List.filter (fun t => decide (isActionVerb t)) [doc[k]]
                = [] := by simp [hav]
            rw [hfil, List.append_nil, hcmd, if_neg hav]
            exact hih
        · have hgd : doc.getD k defaultToken = defaultToken := by
            rw [List.getD_eq_getElem?_getD, List.getElem?_eq_none (Nat.le_of_not_lt hk)]
            rfl
          rw [hgd] at hcmd
          have hnv : ¬ isActionVerb defaultToken := by decide
          rw [if_neg hnv] at hcmd
          rw [List.take_succ, List.getElem?_eq_none (Nat.le_of_not_lt hk)]
          simp only [Option.toList_none, List.append_nil]
          rw [hcmd]
          exact hih

/-- C1, counterexample: the extractor does not skip a numeric token that
fails to parse — the `ValueError` raised by `float("three")` propagates out
of `extract_command_slots` (modelled as `none`), so there are inputs on
which no record is produced at all. -/
theorem C1_counterexample : extract_command_slots [verbTok, numTok "three"] [] = none := by
  rfl

/-- C2, counterexample: with two matching action verbs ("move" then
"rotate") the recorded action is the LAST one, not the first — the verb loop
never breaks, so scanning does not stop at the first match. -/
theorem C2_counterexample :
    extract_command_slots [verbTok, rotateVerbTok] [] =
      some { command := "ROTATE", direction := none, value := none, unit := none } := by
  rfl

/-- C2 (amended): the action recorded by the extractor is the upper-cased
lemma of the LAST token (in sequence order) whose coarse tag is VERB and
whose lemma is exactly (case-sensitively) a canonical action; when no such
token exists the action is UNKNOWN. -/
theorem C2_amended (doc : List Token) (ft : List String) (co : CommandSlots)
    (h : extract_command_slots doc ft = some co) :
    co.command =
      match lastActionVerb doc with
      | none => "UNKNOWN"
      | some t => pyUpper t.lemma_ := by
  unfold extract_command_slots at h
  have hh := extract_fold_command doc doc.length initSlots co h
  rw [List.take_length] at hh
  unfold lastActionVerb
  exact hh

/-- C2, witness for the amended theorem at the two-verb document. -/
theorem C2_amended_witness :
    ({ command := "ROTATE", direction := none, value := none, unit := none } :
        CommandSlots).command =
      match lastActionVerb [verbTok, rotateVerbTok] with
      | none => "UNKNOWN"
      | some t => pyUpper t.lemma_ :=
  C2_amended [verbTok, rotateVerbTok] []
    { command := "ROTATE", direction := none, value := none, unit := none } (by rfl)

/-- C3, counterexample: a sentence containing the direction word "forward"
but no action verb yields an empty record — the direction is NOT discovered
by scanning all tokens; it can only be set from a dependency child of a
matched action verb. -/
theorem C3_counterexample :
    extract_command_slots [fwdTok] [] =
      some { command := "UNKNOWN", direction := none, value := none, unit := none } := by
  rfl

/-- C3 (amended): slot discovery is not attachment-agnostic: the child scan
runs only under matched action verbs, so if no token is a VERB with a
canonical-action lemma, extraction returns the initial record (direction,
value and unit all absent) no matter which direction words occur. -/
theorem C3_amended (doc : List Token) (ft : List String)
    (h : ∀ t ∈ doc, ¬ isActionVerb t) :
    extract_command_slots doc ft = some initSlots := by
  unfold extract_command_slots
  have key : ∀ (l : List Nat) (s : CommandSlots),
      (∀ i ∈ l, ¬ isActionVerb (doc.getD i defaultToken)) →
      List.foldlM (stepVerb doc) s l = some s := by
    intro l
    induction l with
    | nil =>
      intro s _
      rw [List.foldlM_nil]
      rfl
    | cons a l ih =>
      intro s hl
      rw [List.foldlM_cons, stepVerb_skip (hl a (List.mem_cons_self a l))]
      simp only [Option.bind_eq_bind, Option.some_bind]
      exact ih s fun i hi => hl i (List.mem_cons_of_mem a hi)
  apply key
  intro i hi
  have hlt : i < doc.length := List.mem_range.1 hi
  rw [List.getD_eq_getElem doc defaultToken hlt]
  exact h _ (List.getElem_mem hlt)

/-- C3, witness for the amended theorem: the verb-free document containing
"forward". -/
theorem C3_amended_witness :
    extract_command_slots [fwdTok] [] = some initSlots :=
  C3_amended [fwdTok] [] (by decide)

/-- C4, counterexample: a document whose matched verb token has surface text
"meters" and a digit child at position 1. There is no token at position
i + 1 = 2, yet the unit is set — from the child's HEAD token's text — and it
is stored as the raw surface spelling "meters", which is not a value of the
spec's normalization table (that maps "meters" to "meter"). -/
theorem C4_counterexample :
    extract_command_slots [mHeadVerbTok, numChildTok] [] =
      some { command := "MOVE", direction := none, value := some 5, unit := some "meters" } := by
  rfl

/-- C4 (amended): the unit slot, when set at all, holds one of the surface
spellings of `STANDARD_UNITS` — "cm", "meters" or "degrees" — taken from the
matched numeric child's head token or its position-(i+1) neighbour or a
unit-typed child, with no normalization mapping applied (in particular the
spec's canonical "meter" is never produced). -/
theorem C4_amended (doc : List Token) (ft : List String) (co : CommandSlots)
    (h : extract_command_slots doc ft = some co) :
    co.unit = none ∨ co.unit = some "cm" ∨ co.unit = some "meters" ∨
      co.unit = some "degrees" := by
  unfold extract_command_slots at h
  have hinv := foldlM_option_inv (stepVerb doc) unitOK
    (fun a b c hP hh => by
      rcases (stepVerb_pres hh).2 with heq | hex
      · unfold unitOK at hP ⊢
        rw [heq]
        exact hP
      · exact Or.inr hex)
    (List.range doc.length) initSlots co (Or.inl rfl) h
  unfold unitOK at hinv
  rcases hinv with h0 | ⟨u, hu, hmem⟩
  · exact Or.inl h0
  · have hcases : u = "cm" ∨ u = "meters" ∨ u = "degrees" := by
      simpa [STANDARD_UNITS] using hmem
    rcases hcases with rfl | rfl | rfl
    · exact Or.inr (Or.inl hu)
    · exact Or.inr (Or.inr (Or.inl hu))
    · exact Or.inr (Or.inr (Or.inr hu))

/-- C4, witness for the amended theorem at the head-text-unit document. -/
theorem C4_amended_witness :
    ({ command := "MOVE", direction := none, value := some 5, unit := some "meters" } :
        CommandSlots).unit = none ∨
      ({ command := "MOVE", direction := none, value := some 5, unit := some "meters" } :
        CommandSlots).unit = some "cm" ∨
      ({ command := "MOVE", direction := none, value := some 5, unit := some "meters" } :
        CommandSlots).unit = some "meters" ∨
      ({ command := "MOVE", direction := none, value := some 5, unit := some "meters" } :
        CommandSlots).unit = some "degrees" :=
  C4_amended [mHeadVerbTok, numChildTok] []
    { command := "MOVE", direction := none, value := some 5, unit := some "meters" } (by rfl)

/-- C5, counterexample: with no verb in the document and fallback list
["Move"], the fallback does NOT fire — membership in `STANDARD_ACTIONS` is
exact and case-sensitive, so the capitalized first token leaves the action
UNKNOWN, contradicting the claimed case-insensitive match. -/
theorem C5_counterexample :
    generate_command_object [] ["Move"] =
      some { command := "UNKNOWN", direction := none, value := none, unit := none } := by
  rfl

/-- C5 (amended): when the action is still UNKNOWN after extraction and the
fallback list is non-empty, the action becomes the upper-cased first element
exactly when that element is exactly (case-sensitively) a member of the
canonical action set; otherwise (including capitalized variants such as
"Move" or "MOVE") the record is returned unchanged. -/
theorem C5_amended (doc : List Token) (t : String) (rest : List String)
    (co : CommandSlots) (h : extract_command_slots doc (t :: rest) = some co)
    (hu : co.command = "UNKNOWN") :
    generate_command_object doc (t :: rest) =
      some (if t ∈ STANDARD_ACTIONS then { co with command := pyUpper t } else co) := by
  unfold generate_command_object
  rw [h, Option.map_some', if_pos hu]

/-- C5, witness for the amended theorem at fallback list ["Move"]. -/
theorem C5_amended_witness :
    generate_command_object [] ["Move"] =
      some (if "Move" ∈ STANDARD_ACTIONS
        then { initSlots with command := pyUpper "Move" } else initSlots) :=
  C5_amended [] "Move" [] initSlots (by rfl) (by rfl)

/-- The resulting pose of `move_robot`, in closed form. -/
theorem move_robot_state (s : RobotState) (d : String) (v : ℚ) (u : String) :
    (move_robot s d v u).2 =
      if u = "cm" ∨ u = "meter" then
        (if d = "FORWARD" then { s with y := s.y + (if u = "cm" then v / 100 else v) }
         else if d = "BACKWARD" then { s with y := s.y + -(if u = "cm" then v / 100 else v) }
         else if d = "RIGHT" then { s with x := s.x + (if u = "cm" then v / 100 else v) }
         else if d = "LEFT" then { s with x := s.x + -(if u = "cm" then v / 100 else v) }
         else s)
      else s := by
  unfold move_robot update_state
  by_cases hcm : u = "cm"
  · rw [if_pos hcm, if_pos (Or.inl hcm), if_pos hcm]
    dsimp only
    split <;> [skip; split <;> [skip; split <;> [skip; split]]] <;>
      simp [RobotState.mk.injEq]
  · rw [if_neg hcm]
    by_cases hm : u = "meter"
    · rw [if_pos hm, if_pos (Or.inr hm), if_neg hcm]
      dsimp only
      split <;> [skip; split <;> [skip; split <;> [skip; split]]] <;>
        simp [RobotState.mk.injEq]
    · rw [if_neg hm, if_neg (by rintro (h | h) <;> [exact hcm h; exact hm h])]

/-- A pose with a nonzero delta added to `y` differs from the original. -/
theorem pose_ne_dy (s : RobotState) (m : ℚ) (hm : m ≠ 0) :
    ({ s with y := s.y + m } : RobotState) ≠ s := by
  intro h
  exact hm (by simpa using congrArg RobotState.y h)

/-- A pose with a nonzero delta added to `x` differs from the original. -/
theorem pose_ne_dx (s : RobotState) (m : ℚ) (hm : m ≠ 0) :
    ({ s with x := s.x + m } : RobotState) ≠ s := by
  intro h
  exact hm (by simpa using congrArg RobotState.x h)

/-- C6, counterexample: a MOVE record whose three slots are all present and
truthy (direction FORWARD, value 1, unit "meters" — the very spelling the
parser stores) is dispatched, yet the pose is left unchanged and an error
string is returned, because `move_robot` supports only "cm" and "meter".
So "mutates iff direction, value, unit all truthy" fails in the
if-direction. -/
theorem C6_counterexample :
    (truthyStr (some "FORWARD") = true ∧ truthyRat (some 1) = true ∧
        truthyStr (some "meters") = true) ∧
      execute_command
          { command := some (some "MOVE"), direction := some (some "FORWARD"),
            value := some (some 1), unit := some (some "meters") } initRobot
        = ("Error: Unit 'meters' not supported for movement.", initRobot) :=
  ⟨⟨rfl, rfl, rfl⟩, rfl⟩

/-- C6 (amended): for a MOVE record, if any of direction, value, unit is
absent or falsy, dispatch returns the missing-slot error string and leaves
the pose exactly unchanged; when all three are truthy, the pose changes iff
in addition the unit is one of "cm"/"meter" AND the direction is one of the
four canonical upper-cased directions (otherwise the pose is again
unchanged, with an unsupported-unit error or a vacuous move). -/
theorem C6_amended (cmd : CommandDict) (s : RobotState)
    (hc : cmd.command.join = some "MOVE") :
    ((truthyStr cmd.direction.join && truthyRat cmd.value.join &&
        truthyStr cmd.unit.join) = false →
      execute_command cmd s =
        ("Error: MOVE command missing direction, value, or unit.", s)) ∧
    ((truthyStr cmd.direction.join && truthyRat cmd.value.join &&
        truthyStr cmd.unit.join) = true →
      ((execute_command cmd s).2 ≠ s ↔
        ((cmd.unit.join = some "cm" ∨ cmd.unit.join = some "meter") ∧
          (cmd.direction.join = some "FORWARD" ∨ cmd.direction.join = some "BACKWARD" ∨
           cmd.direction.join = some "RIGHT" ∨ cmd.direction.join = some "LEFT")))) := by
  constructor
  · intro hfalse
    unfold execute_command
    dsimp only
    rw [hc, if_pos rfl, hfalse]
    simp
  · intro htrue
    have htrue' := htrue
    rw [Bool.and_eq_true, Bool.and_eq_true] at htrue
    obtain ⟨⟨htd, htv⟩, htu⟩ := htrue
    unfold execute_command
    dsimp only
    rw [hc, if_pos rfl, if_pos htrue']
    cases hd : cmd.direction.join with
    | none => rw [hd] at htd; simp [truthyStr] at htd
    | some d =>
      cases hv : cmd.value.join with
      | none => rw [hv] at htv; simp [truthyRat] at htv
      | some v =>
        cases hu : cmd.unit.join with
        | none => rw [hu] at htu; simp [truthyStr] at htu
        | some u =>
          have hvne : v ≠ 0 := by
            intro hveq
            rw [hv, hveq] at htv
            simp [truthyRat] at htv
          simp only [Option.getD_some]
          rw [move_robot_state]
          by_cases huok : u = "cm" ∨ u = "meter"
          · rw [if_pos huok]
            have hmne : (if u = "cm" then v / 100 else v) ≠ 0 := by
              split
              · exact div_ne_zero hvne (by norm_num)
              · exact hvne
            by_cases hF : d = "FORWARD"
            · subst hF
              rw [if_pos rfl]
              constructor
              · intro _
                exact ⟨by rcases huok with h | h <;> [exact Or.inl (by rw [h]); exact Or.inr (by rw [h])],
                  Or.inl rfl⟩
              · intro _
                exact pose_ne_dy s _ hmne
            · rw [if_neg hF]
              by_cases hB : d = "BACKWARD"
              · subst hB
                rw [if_pos rfl]
                constructor
                · intro _
                  exact ⟨by rcases huok with h | h <;> [exact Or.inl (by rw [h]); exact Or.inr (by rw [h])],
                    Or.inr (Or.inl rfl)⟩
                · intro _
                  exact pose_ne_dy s _ (neg_ne_zero.2 hmne)
              · rw [if_neg hB]
                by_cases hR : d = "RIGHT"
                · subst hR
                  rw [if_pos rfl]
                  constructor
                  · intro _
                    exact ⟨by rcases huok with h | h <;> [exact Or.inl (by rw [h]); exact Or.inr (by rw [h])],
                      Or.inr (Or.inr (Or.inl rfl))⟩
                  · intro _
                    exact pose_ne_dx s _ hmne
                · rw [if_neg hR]
                  by_cases hL : d = "LEFT"
                  · subst hL
                    rw [if_pos rfl]
                    constructor
                    · intro _
                      exact ⟨by rcases huok with h | h <;> [exact Or.inl (by rw [h]); exact Or.inr (by rw [h])],
                        Or.inr (Or.inr (Or.inr rfl))⟩
                    · intro _
                      exact pose_ne_dx s _ (neg_ne_zero.2 hmne)
                  · rw [if_neg hL]
                    constructor
                    · intro hne
                      exact absurd rfl hne
                    · rintro ⟨_, hdir⟩
                      rcases hdir with h | h | h | h
                      · exact (hF (Option.some.inj h)).elim
                      · exact (hB (Option.some.inj h)).elim
                      · exact (hR (Option.some.inj h)).elim
                      · exact (hL (Option.some.inj h)).elim
          · rw [if_neg huok]
            constructor
            · intro hne
              exact absurd rfl hne
            · rintro ⟨hunit, _⟩
              rcases hunit with h | h
              · exact (huok (Or.inl (Option.some.inj h))).elim
              · exact (huok (Or.inr (Option.some.inj h))).elim

/-- C6, witness for the amended theorem: a MOVE record with an absent value
gets the missing-slot error and an unchanged pose. -/
theorem C6_amended_witness :
    execute_command
        { command := some (some "MOVE"), direction := some (some "FORWARD"),
          value := some none, unit := some (some "cm") } initRobot
      = ("Error: MOVE command missing direction, value, or unit.", initRobot) :=
  (C6_amended
    { command := some (some "MOVE"), direction := some (some "FORWARD"),
      value := some none, unit := some (some "cm") } initRobot rfl).1 rfl

/-- C7: `move_robot` converts cm by dividing by 100 and treats meter as
identity; any other unit yields the unsupported-unit error string with the
pose unchanged; FORWARD/BACKWARD add/subtract on y, RIGHT/LEFT add/subtract
on x (all other pose fields untouched); in particular FORWARD 100 cm adds
exactly 1 to y and RIGHT 5 meter adds exactly 5 to x. -/
theorem C7_move_spec (s : RobotState) (v : ℚ) (d u : String) :
    (u ≠ "cm" → u ≠ "meter" →
      move_robot s d v u =
        ("Error: Unit '" ++ u ++ "' not supported for movement.", s)) ∧
    (move_robot s "FORWARD" v "cm").2 = { s with y := s.y + v / 100 } ∧
    (move_robot s "BACKWARD" v "meter").2 = { s with y := s.y - v } ∧
    (move_robot s "RIGHT" v "meter").2 = { s with x := s.x + v } ∧
    (move_robot s "LEFT" v "cm").2 = { s with x := s.x - v / 100 } ∧
    (move_robot s "FORWARD" 100 "cm").2 = { s with y := s.y + 1 } ∧
    (move_robot s "RIGHT" 5 "meter").2 = { s with x := s.x + 5 } := by
  refine ⟨fun h1 h2 => ?_, ?_, ?_, ?_, ?_, ?_, ?_⟩
  · unfold move_robot
    rw [if_neg h1, if_neg h2]
  · rw [move_robot_state]; simp
  · rw [move_robot_state]; simp [sub_eq_add_neg]
  · rw [move_robot_state]; simp
  · rw [move_robot_state]; simp [sub_eq_add_neg]
  · rw [move_robot_state]; norm_num
  · rw [move_robot_state]; simp

/-- C7, witness: an unsupported unit at a concrete input. -/
theorem C7_move_spec_witness :
    move_robot initRobot "LEFT" 3 "yards"
      = ("Error: Unit 'yards' not supported for movement.", initRobot) :=
  (C7_move_spec initRobot 3 "LEFT" "yards").1 (by decide) (by decide)

/-- C8: when every vocabulary entry scores strictly below the threshold
against the token, `get_standard_word` returns the token verbatim
(fail-open); as a total function it cannot raise on any input. -/
theorem C8_fail_open (score : String → String → Nat) (token : String)
    (vocabulary : List String) (threshold : Nat)
    (h : ∀ w ∈ vocabulary, score (pyLower token) (pyLower w) < threshold) :
    get_standard_word score token vocabulary threshold = token := by
  unfold get_standard_word
  dsimp only
  have key : ∀ (l : List String) (acc : String × Nat), acc.1 = token →
      (∀ w ∈ l, score (pyLower token) (pyLower w) < threshold) →
      (List.foldl (fuzzyStep score token threshold) acc l).1 = token := by
    intro l
    induction l with
    | nil =>
      intro acc h1 _
      exact h1
    | cons a l ih =>
      intro acc h1 hl
      rw [List.foldl_cons]
      apply ih
      · unfold fuzzyStep
        dsimp only
        split
        · rw [if_neg (Nat.not_le.mpr (hl a (List.mem_cons_self a l)))]
          exact h1
        · exact h1
      · exact fun w hw => hl w (List.mem_cons_of_mem a hw)
  have hfst := key vocabulary (token, 0) rfl h
  split
  · exact hfst
  · rfl

/-- C8, witness: a score function that never reaches the threshold leaves a
concrete token unchanged. -/
theorem C8_fail_open_witness :
    (∀ w ∈ ["move", "rotate"],
        (fun _ _ => 0 : String → String → Nat) (pyLower "helo") (pyLower w) < 85) ∧
      get_standard_word (fun _ _ => 0) "helo" ["move", "rotate"] 85 = "helo" :=
  ⟨by decide, C8_fail_open (fun _ _ => 0) "helo" ["move", "rotate"] 85 (by decide)⟩

/-- C9, counterexample: none of the canonical unit symbols ("cm", "meter",
"degrees") occurs as a key of `REFERENCE_COMMAND_LEXICON` — the table does
not map any canonical unit to itself, contradicting the claimed
self-mapping invariant. -/
theorem C9_counterexample :
    List.lookup "cm" REFERENCE_COMMAND_LEXICON = none ∧
      List.lookup "meter" REFERENCE_COMMAND_LEXICON = none ∧
      List.lookup "degrees" REFERENCE_COMMAND_LEXICON = none :=
  ⟨rfl, rfl, rfl⟩

/-- C9 (amended): the canonical unit symbols are NOT keys of the lexicon;
normalization is nevertheless the identity on them, but only because the
lookup falls back to the token itself (`lexicon.get(token, token)`) when the
key is absent, as in `simple_template_matching`. -/
theorem C9_amended (u : String) (h : u ∈ ["cm", "meter", "degrees"]) :
    List.lookup u REFERENCE_COMMAND_LEXICON = none ∧
      lexGet REFERENCE_COMMAND_LEXICON u = u ∧
      simple_template_matching [u] REFERENCE_COMMAND_LEXICON = [u] := by
  have hcases : u = "cm" ∨ u = "meter" ∨ u = "degrees" := by simpa using h
  rcases hcases with rfl | rfl | rfl
  · exact ⟨rfl, rfl, rfl⟩
  · exact ⟨rfl, rfl, rfl⟩
  · exact ⟨rfl, rfl, rfl⟩

/-- C9, witness for the amended theorem at the canonical symbol "cm". -/
theorem C9_amended_witness :
    ("cm" ∈ ["cm", "meter", "degrees"]) ∧
      (List.lookup "cm" REFERENCE_COMMAND_LEXICON = none ∧
        lexGet REFERENCE_COMMAND_LEXICON "cm" = "cm" ∧
        simple_template_matching ["cm"] REFERENCE_COMMAND_LEXICON = ["cm"]) :=
  ⟨by decide, C9_amended "cm" (by decide)⟩

/-- C10: dispatching a ROTATE record with a present value is completely
independent of the record's unit field — both the feedback string and the
resulting pose coincide for any two unit values (present, absent, or
holding `None`). -/
theorem C10_rotate_unit_independent (direction : Option (Option String)) (v : ℚ)
    (u1 u2 : Option (Option String)) (s : RobotState) :
    execute_command
        { command := some (some "ROTATE"), direction := direction,
          value := some (some v), unit := u1 } s =
      execute_command
        { command := some (some "ROTATE"), direction := direction,
          value := some (some v), unit := u2 } s := by
  rfl

/-- C1 (amended): the extractor does NOT skip a numeric-selected token whose
text fails to parse as a float after the substitution (which in the code
replaces every "a" by "1", so "an" becomes "1n"): the `ValueError` raised by
`float` propagates and extraction produces no record at all (`none`). When
the substituted text does parse, the value slot holds exactly the parsed
number — so whenever a record is returned, its value field is a
successfully parsed float or absent. Shown on the document family
[action verb, CARDINAL child with arbitrary text]. -/
theorem C1_amended (txt : String) :
    (pyFloat (pyReplace (pyReplace (pyLower txt) "a" "1") "an" "1") = none →
      extract_command_slots [verbTok, numTok txt] [] = none) ∧
    (∀ v : ℚ, pyFloat (pyReplace (pyReplace (pyLower txt) "a" "1") "an" "1") = some v →
      extract_command_slots [verbTok, numTok txt] [] =
        some { command := "MOVE",
               direction := if pyLower txt ∈ STANDARD_DIRECTIONS
                 then some (pyUpper (pyLower txt)) else none,
               value := some v, unit := none }) := by
  have hget : pyLower (([verbTok, numTok txt].getD 1 defaultToken).text) = pyLower txt := rfl
  have h1 : ∀ m : CommandSlots, stepVerb [verbTok, numTok txt] m 1 = some m :=
    fun m => stepVerb_skip (fun hc => absurd hc.1 (by decide : ¬ (("NUM" : String) = "VERB")))
  have hstep0 : stepVerb [verbTok, numTok txt] initSlots 0 =
      processChild [verbTok, numTok txt]
        { command := "MOVE", direction := none, value := none, unit := none } 1 := by
    unfold stepVerb
    dsimp only
    rw [if_pos (show isActionVerb ([verbTok, numTok txt].getD 0 defaultToken) from
      (by decide : isActionVerb verbTok))]
    rw [show childIndices [verbTok, numTok txt] 0 = [1] from rfl]
    rw [List.foldlM_cons]
    simp only [List.foldlM_nil, bind_pure]
    rfl
  constructor
  · intro hfail
    unfold extract_command_slots
    rw [show List.range ([verbTok, numTok txt].length) = [0, 1] from rfl,
      List.foldlM_cons, hstep0]
    unfold processChild
    dsimp only
    rw [if_pos (Or.inl (show ([verbTok, numTok txt].getD 1 defaultToken).dep_
      ∈ ["nummod", "dobj", "pobj"] from
      (by decide : ("dobj" : String) ∈ ["nummod", "dobj", "pobj"])))]
    rw [if_pos (Or.inr (show ([verbTok, numTok txt].getD 1 defaultToken).entType = "CARDINAL" from
      (by decide : ("CARDINAL" : String) = "CARDINAL")))]
    rw [hget, hfail]
    rfl
  · intro v hsucc
    unfold extract_command_slots
    rw [show List.range ([verbTok, numTok txt].length) = [0, 1] from rfl,
      List.foldlM_cons, hstep0]
    unfold processChild
    dsimp only
    rw [if_pos (Or.inl (show ([verbTok, numTok txt].getD 1 defaultToken).dep_
      ∈ ["nummod", "dobj", "pobj"] from
      (by decide : ("dobj" : String) ∈ ["nummod", "dobj", "pobj"])))]
    rw [if_pos (Or.inr (show ([verbTok, numTok txt].getD 1 defaultToken).entType = "CARDINAL" from
      (by decide : ("CARDINAL" : String) = "CARDINAL")))]
    rw [hget, hsucc]
    dsimp only
    rw [if_neg (show ¬ (pyLower (([verbTok, numTok txt].getD
        ([verbTok, numTok txt].getD 1 defaultToken).head defaultToken).text)
        ∈ STANDARD_UNITS) from
      (by decide : ¬ ((pyLower "move") ∈ STANDARD_UNITS)))]
    rw [if_neg (show ¬ (1 + 1 < [verbTok, numTok txt].length ∧
        pyLower (([verbTok, numTok txt].getD (1 + 1) defaultToken).text)
          ∈ STANDARD_UNITS) from
      fun hcc => absurd hcc.2 (by decide : ¬ ((pyLower "") ∈ STANDARD_UNITS)))]
    simp only [Option.bind_eq_bind, Option.some_bind, List.foldlM_cons, List.foldlM_nil, h1,
      Option.pure_def]
    by_cases hdm : pyLower txt ∈ STANDARD_DIRECTIONS
    · rw [if_pos hdm, if_pos hdm]
    · rw [if_neg hdm, if_neg hdm]

/-- C1, witness for the amended theorem: "three" fails to parse and aborts
extraction; "5" parses and lands in the value slot. -/
theorem C1_amended_witness :
    extract_command_slots [verbTok, numTok "three"] [] = none ∧
      extract_command_slots [verbTok, numTok "5"] [] =
        some { command := "MOVE",
               direction := if pyLower "5" ∈ STANDARD_DIRECTIONS
                 then some (pyUpper (pyLower "5")) else none,
               value := some 5, unit := none } :=
  ⟨(C1_amended "three").1 (by rfl), (C1_amended "5").2 5 (by rfl)⟩
